import Mathlib

/-!
# Verification of the data-lineage / quality-tracking subsystem

Shallow embedding of the lineage routes (`src/routes/lineage.py`) and the
relevant ORM models (`src/models/database.py`) of the geopolitical data
platform backend, together with proofs of the specified properties.

Modelling conventions:
* A JSON-encoded `Text` column holding `json.dumps(v)` is modelled as
  `some v` (the structured value it carries); a SQL `NULL` column is `none`.
  `json.dumps` of any value is a non-empty string, so Python truthiness of
  the column (`if self.quality_metrics`) corresponds exactly to `Option.isSome`,
  and `json.loads` of the stored text recovers the carried value.
* A quality-metrics mapping is an association list from string keys to
  numeric-or-null values (`Option ℚ`); `none` models JSON `null`, which the
  report's `metrics[metric] is not None` check filters out.
* `datetime` instants are abstract `Nat` tags supplied by the caller
  (`datetime.utcnow()` becomes an explicit `now` argument); `isoformat`
  rendering is external I/O and the representation keeps the instant.
* Python `float` arithmetic is modelled over `ℚ`; Python's `round(x, 2)`
  (banker's rounding to two decimals) is `round2`.
* The relational store is a record of the three tables the subsystem touches;
  each route is a function from the store (plus request data) to a result and,
  for mutating routes, the successor store.  `db.session.rollback()` on error
  is modelled by returning the store unchanged.
-/

set_option autoImplicit false

namespace GeoPlatform

/-- JSON values, used for the opaque JSON-encoded columns (`source_chain`,
`country_focus`, `topic_coverage`).  The lineage subsystem never inspects
these values; they round-trip through the store. -/
inductive JVal where
  | null
  | bool (b : Bool)
  | num (q : ℚ)
  | str (s : String)
  | arr (elems : List JVal)
  | obj (fields : List (String × JVal))

/-- A decoded quality-metrics mapping: keys to numeric-or-null values,
as produced by `json.loads` of the `quality_metrics` column. -/
abbrev QMetrics := List (String × Option ℚ)

/-- Association-list lookup, modelling Python `d[k]` / `k in d`
(`none` iff the key is absent). -/
def aFind {α : Type} (d : List (String × α)) (k : String) : Option α :=
  (d.find? (fun p => p.1 == k)).map Prod.snd

/-- Python `dict.update`: `dictUpdate old upd` overwrites in `old` exactly the
keys present in `upd`, preserving all other entries of `old`. -/
def dictUpdate (old upd : QMetrics) : QMetrics :=
  match old with
  | [] => upd
  | p :: rest =>
    if (aFind upd p.1).isSome then dictUpdate rest upd
    else p :: dictUpdate rest upd

/-- A counting dictionary (Python `dict` from status strings to ints). -/
abbrev CountDict := List (String × Nat)

/-- Python `d.get(k, dflt)`. -/
def dGet (d : CountDict) (k : String) (dflt : Nat) : Nat :=
  (aFind d k).getD dflt

/-- Python `d[k] = v` (updates the existing key in place, else appends). -/
def dSet (d : CountDict) (k : String) (v : Nat) : CountDict :=
  match d with
  | [] => [(k, v)]
  | p :: rest => if p.1 == k then (k, v) :: rest else p :: dSet rest k v

/-- `Source` row (`src/models/database.py`). -/
structure Source where
  id : String
  name : String
  type : String
  url : Option String
  reliability_score : ℚ
  bias_rating : Option String
  update_frequency : Option String
  language : String
  country_focus : Option JVal
  topic_coverage : Option JVal
  api_available : Bool
  last_updated : Option Nat
  verification_status : String
  created_at : Option Nat

/-- The dictionary returned by `Source.to_dict`. -/
structure SourceDict where
  id : String
  name : String
  type : String
  url : Option String
  reliability_score : ℚ
  bias_rating : Option String
  update_frequency : Option String
  language : String
  country_focus : JVal
  topic_coverage : JVal
  api_available : Bool
  last_updated : Option Nat
  verification_status : String
  created_at : Option Nat

/-- `Source.to_dict` (`src/models/database.py`): JSON columns are decoded,
with `[]` for an absent column. -/
def Source.to_dict (s : Source) : SourceDict :=
  { id := s.id
    name := s.name
    type := s.type
    url := s.url
    reliability_score := s.reliability_score
    bias_rating := s.bias_rating
    update_frequency := s.update_frequency
    language := s.language
    country_focus := s.country_focus.getD (JVal.arr [])
    topic_coverage := s.topic_coverage.getD (JVal.arr [])
    api_available := s.api_available
    last_updated := s.last_updated
    verification_status := s.verification_status
    created_at := s.created_at }

/-- `DataEntry` row (`src/models/database.py`). -/
structure DataEntry where
  id : String
  source_id : String
  title : Option String
  content : Option String
  content_type : Option String
  url : Option String
  published_date : Option Nat
  collected_date : Option Nat
  raw_data_hash : Option String
  processed : Bool

/-- The dictionary returned by `DataEntry.to_dict`. -/
structure EntryDict where
  id : String
  source_id : String
  title : Option String
  content : Option String
  content_type : Option String
  url : Option String
  published_date : Option Nat
  collected_date : Option Nat
  raw_data_hash : Option String
  processed : Bool

/-- `DataEntry.to_dict` (`src/models/database.py`). -/
def DataEntry.to_dict (e : DataEntry) : EntryDict :=
  { id := e.id
    source_id := e.source_id
    title := e.title
    content := e.content
    content_type := e.content_type
    url := e.url
    published_date := e.published_date
    collected_date := e.collected_date
    raw_data_hash := e.raw_data_hash
    processed := e.processed }

/-- `DataLineage` row (`src/models/database.py`).  `source_chain` and
`quality_metrics` are nullable JSON-encoded text columns (see the modelling
conventions above). -/
structure DataLineage where
  id : String
  data_entry_id : String
  source_chain : Option JVal
  quality_metrics : Option QMetrics
  validation_status : String
  last_verified : Option Nat
  created_at : Option Nat

/-- The dictionary returned by `DataLineage.to_dict`. -/
structure LineageDict where
  id : String
  data_entry_id : String
  source_chain : JVal
  quality_metrics : QMetrics
  validation_status : String
  last_verified : Option Nat
  created_at : Option Nat

/-- `DataLineage.to_dict` (`src/models/database.py`): decodes the JSON
columns, with `[]` / `{}` for an absent `source_chain` / `quality_metrics`. -/
def DataLineage.to_dict (l : DataLineage) : LineageDict :=
  { id := l.id
    data_entry_id := l.data_entry_id
    source_chain := l.source_chain.getD (JVal.arr [])
    quality_metrics := l.quality_metrics.getD []
    validation_status := l.validation_status
    last_verified := l.last_verified
    created_at := l.created_at }

/-- The relational store restricted to the three tables the lineage
subsystem touches. -/
structure Store where
  sources : List Source
  entries : List DataEntry
  lineages : List DataLineage

/-- Error classification of the lineage routes: `missingField` is the
explicit HTTP 400, `notFound` the explicit HTTP 404 returned by
`create_lineage_record`, and `internalError` the HTTP 500 produced by each
view's broad `except Exception` handler (`return jsonify({'error': str(e)}),
500`).  Note that `get_or_404` raises werkzeug's `NotFound`, a subclass of
`Exception`, inside that `try` block, so an unresolved identifier in
`validate_lineage` / `trace_data_lineage` surfaces as `internalError`, not
as `notFound`. -/
inductive ApiError where
  | missingField (f : String)
  | notFound (message : String)
  | internalError (message : String)

/-- `str(e)` of the werkzeug `NotFound` raised by `get_or_404`, as embedded
in the 500 response body by the views' `except Exception` handler. -/
def get_or_404_message : String :=
  "404 Not Found: The requested URL was not found on the server. If you entered the URL manually please check your spelling and try again."

/-- Request body of `POST /` (create); `none` fields model absent JSON keys. -/
structure CreateReq where
  data_entry_id : Option String
  source_chain : Option JVal
  quality_metrics : Option QMetrics
  validation_status : Option String

/-- Request body of `POST /<lineage_id>/validate`. -/
structure ValidateReq where
  validation_status : Option String
  quality_metrics : Option QMetrics

/-- `DataEntry.query.get(deid)` — primary-key lookup. -/
def findEntry (st : Store) (deid : String) : Option DataEntry :=
  st.entries.find? (fun e => e.id == deid)

/-- `DataLineage.query.get(lid)` — primary-key lookup. -/
def findLineage (st : Store) (lid : String) : Option DataLineage :=
  st.lineages.find? (fun l => l.id == lid)

/-- `create_lineage_record` (`src/routes/lineage.py`).  Checks the required
fields in order, resolves the target entry, and on success persists one new
row whose `quality_metrics` defaults to the empty mapping and whose
`validation_status` defaults to `"pending"`.  `newId` is the generated UUID
and `now` the current instant. -/
def create_lineage_record (st : Store) (req : CreateReq) (newId : String) (now : Nat) :
    Except ApiError LineageDict × Store :=
  match req.data_entry_id with
  | none => (.error (.missingField "data_entry_id"), st)
  | some deid =>
    match req.source_chain with
    | none => (.error (.missingField "source_chain"), st)
    | some sc =>
      match findEntry st deid with
      | none => (.error (.notFound "Data entry not found"), st)
      | some _ =>
        let lineage : DataLineage :=
          { id := newId
            data_entry_id := deid
            source_chain := some sc
            quality_metrics := some (req.quality_metrics.getD [])
            validation_status := req.validation_status.getD "pending"
            last_verified := none
            created_at := some now }
        (.ok lineage.to_dict, { st with lineages := st.lineages ++ [lineage] })

/-- `validate_lineage` (`src/routes/lineage.py`).  Resolves the record with
`get_or_404`; on an unresolved identifier the raised werkzeug `NotFound` is
caught by the view's own `except Exception` handler and returned as an HTTP
500 internal error (with the exception's text as the body), not as a 404.
On the found path it sets the validation status (default `"validated"`) and
`last_verified`, and — when the supplied quality-metrics partial is a
non-empty mapping — loads the existing mapping (`{}` for an absent column),
merges the partial into it with `dict.update`, and stores the result. -/
def validate_lineage (st : Store) (lid : String) (req : ValidateReq) (now : Nat) :
    Except ApiError LineageDict × Store :=
  match findLineage st lid with
  | none => (.error (.internalError get_or_404_message), st)
  | some lineage =>
    let validation_status := req.validation_status.getD "validated"
    let quality_metrics := req.quality_metrics.getD []
    let l1 : DataLineage :=
      { lineage with validation_status := validation_status, last_verified := some now }
    let l2 : DataLineage :=
      if quality_metrics.isEmpty then l1
      else
        { l1 with
          quality_metrics := some (dictUpdate (l1.quality_metrics.getD []) quality_metrics) }
    (.ok l2.to_dict,
     { st with lineages := st.lineages.map (fun x => if x.id == lid then l2 else x) })

/-- The trace returned by `trace_data_lineage`. -/
structure TraceResult where
  data_entry : EntryDict
  lineage_records : List LineageDict
  source_info : Option SourceDict
  total_lineage_records : Nat

/-- `trace_data_lineage` (`src/routes/lineage.py`).  Resolves the entry with
`get_or_404`; as in `validate_lineage`, an unresolved identifier's werkzeug
`NotFound` is caught by the view's broad `except Exception` and returned as
an HTTP 500 internal error.  On the found path it collects every lineage
record owned by the entry and returns the trace; `source_info` follows the
`entry.source` relationship. -/
def trace_data_lineage (st : Store) (deid : String) : Except ApiError TraceResult :=
  match findEntry st deid with
  | none => .error (.internalError get_or_404_message)
  | some entry =>
    .ok
      { data_entry := entry.to_dict
        lineage_records :=
          (st.lineages.filter (fun l => l.data_entry_id == deid)).map DataLineage.to_dict
        source_info := (st.sources.find? (fun s => s.id == entry.source_id)).map Source.to_dict
        total_lineage_records := (st.lineages.filter (fun l => l.data_entry_id == deid)).length }

/-- The four fixed metric keys (`quality_sums.keys()`). -/
def qualityKeys : List String := ["completeness", "accuracy", "timeliness", "consistency"]

/-- The records scanned by the quality report:
`DataLineage.query.filter(DataLineage.quality_metrics.isnot(None))`. -/
def scannedRecords (st : Store) : List DataLineage :=
  st.lineages.filter (fun l => l.quality_metrics.isSome)

/-- `validation_counts[status] = validation_counts.get(status, 0) + 1`. -/
def bumpStatus (d : CountDict) (k : String) : CountDict :=
  dSet d k (dGet d k 0 + 1)

/-- The initial `validation_counts` dictionary. -/
def initValidationCounts : CountDict := [("validated", 0), ("pending", 0), ("failed", 0)]

/-- Pointwise update of a metric accumulator. -/
def updFun {α : Type} (f : String → α) (k : String) (v : α) : String → α :=
  fun x => if x == k then v else f x

/-- The inner loop of the quality report over a list of metric keys:
`if metric in metrics and metrics[metric] is not None` accumulate into
`quality_sums` / `quality_counts`. -/
def procMetricsGo (metrics : QMetrics) (keys : List String)
    (acc : (String → ℚ) × (String → Nat)) : (String → ℚ) × (String → Nat) :=
  keys.foldl
    (fun acc metric =>
      match aFind metrics metric with
      | some (some v) =>
        (updFun acc.1 metric (acc.1 metric + v), updFun acc.2 metric (acc.2 metric + 1))
      | _ => acc)
    acc

/-- The inner metric loop over the four fixed keys. -/
def procMetrics (metrics : QMetrics) (acc : (String → ℚ) × (String → Nat)) :
    (String → ℚ) × (String → Nat) :=
  procMetricsGo metrics qualityKeys acc

/-- One iteration of the quality report's record loop: tally the validation
status, then (when the `quality_metrics` column is truthy) process the
decoded metrics. -/
def reportStep (acc : CountDict × ((String → ℚ) × (String → Nat))) (record : DataLineage) :
    CountDict × ((String → ℚ) × (String → Nat)) :=
  (bumpStatus acc.1 record.validation_status,
   match record.quality_metrics with
   | some metrics => procMetrics metrics acc.2
   | none => acc.2)

/-- Initial accumulator of the record loop: the seeded `validation_counts`
and all-zero `quality_sums` / `quality_counts`. -/
def reportInit : CountDict × ((String → ℚ) × (String → Nat)) :=
  (initValidationCounts, (fun _ => 0, fun _ => 0))

/-- `quality_averages`: per fixed key, the sum over the count when the count
is positive, else `None`. -/
def reportAverages (acc : (String → ℚ) × (String → Nat)) : List (String × Option ℚ) :=
  qualityKeys.map fun metric =>
    (metric, if 0 < acc.2 metric then some (acc.1 metric / (acc.2 metric : ℚ)) else none)

/-- `quality_metric_coverage`: per fixed key, the string `"count/total"`. -/
def reportCoverage (acc : (String → ℚ) × (String → Nat)) (total : Nat) :
    List (String × String) :=
  qualityKeys.map fun metric => (metric, Nat.repr (acc.2 metric) ++ "/" ++ Nat.repr total)

/-- The two possible response shapes of the quality report. -/
inductive QualityReport where
  | noData (message : String) (total_records : Nat)
  | report (total_records : Nat)
      (validation_status_distribution : CountDict)
      (average_quality_metrics : List (String × Option ℚ))
      (quality_metric_coverage : List (String × String))

/-- `get_quality_report` (`src/routes/lineage.py`): scans every record with a
non-NULL `quality_metrics` column; with no such record it returns the
"no data" response, otherwise the aggregate report. -/
def get_quality_report (st : Store) : QualityReport :=
  if (scannedRecords st).isEmpty then
    QualityReport.noData "No quality metrics available" 0
  else
    QualityReport.report (scannedRecords st).length
      ((scannedRecords st).foldl reportStep reportInit).1
      (reportAverages ((scannedRecords st).foldl reportStep reportInit).2)
      (reportCoverage ((scannedRecords st).foldl reportStep reportInit).2
        (scannedRecords st).length)

/-- Floor of a rational, computed from numerator and denominator. -/
def ratFloor (q : ℚ) : ℤ :=
  Int.fdiv q.num (q.den : ℤ)

/-- Round to the nearest integer, ties to even (Python's `round`). -/
def roundHalfEven (q : ℚ) : ℤ :=
  if q - (ratFloor q : ℚ) < 1/2 then ratFloor q
  else if (1 : ℚ)/2 < q - (ratFloor q : ℚ) then ratFloor q + 1
  else if ratFloor q % 2 = 0 then ratFloor q else ratFloor q + 1

/-- Python `round(x, 2)`. -/
def round2 (q : ℚ) : ℚ :=
  ((roundHalfEven (q * 100) : ℤ) : ℚ) / 100

/-- The statistics returned by `get_lineage_stats`.  Counts are modelled as
in Python: `entries_without_lineage` is an integer difference. -/
structure LineageStats where
  total_lineage_records : Nat
  validated_records : Nat
  pending_records : Nat
  failed_records : Nat
  total_data_entries : Nat
  entries_with_lineage : Nat
  entries_without_lineage : ℤ
  lineage_coverage_percentage : ℚ

/-- `get_lineage_stats` (`src/routes/lineage.py`): table counts, the distinct
count of `data_entry_id` over the lineage table, and the coverage
percentage (guarded against a zero entry count). -/
def get_lineage_stats (st : Store) : LineageStats :=
  { total_lineage_records := st.lineages.length
    validated_records :=
      (st.lineages.filter (fun l => l.validation_status == "validated")).length
    pending_records :=
      (st.lineages.filter (fun l => l.validation_status == "pending")).length
    failed_records :=
      (st.lineages.filter (fun l => l.validation_status == "failed")).length
    total_data_entries := st.entries.length
    entries_with_lineage := ((st.lineages.map (fun l => l.data_entry_id)).dedup).length
    entries_without_lineage :=
      (st.entries.length : ℤ) - (((st.lineages.map (fun l => l.data_entry_id)).dedup).length : ℤ)
    lineage_coverage_percentage :=
      if 0 < st.entries.length then
        round2 ((((st.lineages.map (fun l => l.data_entry_id)).dedup).length : ℚ) /
          (st.entries.length : ℚ) * 100)
      else 0 }

/-- The value a record's decoded metrics contribute for a metric key:
`some v` iff the key is present with a non-null value (the report's
`metric in metrics and metrics[metric] is not None`). -/
def metricValue (metrics : QMetrics) (metric : String) : Option ℚ :=
  match aFind metrics metric with
  | some (some v) => some v
  | _ => none

/-- The list of values contributing to a metric's average, over a list of
records: exactly the records whose decoded metrics hold the key with a
non-null value.  This is the specification-side characterisation the
report's accumulator is compared against. -/
def contributions (records : List DataLineage) (metric : String) : List ℚ :=
  records.filterMap fun r =>
    match r.quality_metrics with
    | some metrics => metricValue metrics metric
    | none => none

/-- Sum of all bucket values of a counting dictionary. -/
def dValuesSum (d : CountDict) : Nat :=
  (d.map Prod.snd).sum

/-! ### Sample data used by the witness theorems -/

/-- A sample source row. -/
def sampleSource : Source :=
  { id := "S1", name := "World Factbook", type := "government", url := none
    reliability_score := 5, bias_rating := none, update_frequency := none
    language := "en", country_focus := none, topic_coverage := none
    api_available := false, last_updated := none
    verification_status := "pending", created_at := none }

/-- A sample data entry with the given identifier, owned by `sampleSource`. -/
def mkEntry (i : String) : DataEntry :=
  { id := i, source_id := "S1", title := none, content := none
    content_type := none, url := none, published_date := none
    collected_date := none, raw_data_hash := none, processed := false }

/-- A sample lineage record. -/
def mkLineage (i deid : String) (qm : Option QMetrics) (vs : String) : DataLineage :=
  { id := i, data_entry_id := deid, source_chain := some (JVal.arr [])
    quality_metrics := qm, validation_status := vs
    last_verified := none, created_at := none }

/-- The empty store. -/
def emptyStore : Store := { sources := [], entries := [], lineages := [] }

/-- The single lineage record of `storeA`. -/
def lineageA : DataLineage := mkLineage "L1" "E1" (some []) "pending"

/-- A store with one entry and one lineage record with an empty metrics
mapping. -/
def storeA : Store :=
  { sources := [sampleSource], entries := [mkEntry "E1"], lineages := [lineageA] }

/-- A validate request supplying only a completeness score. -/
def vreqCompleteness : ValidateReq :=
  { validation_status := none, quality_metrics := some [("completeness", some (1/2))] }

/-- A validate request supplying only an accuracy score (disjoint from
`vreqCompleteness`). -/
def vreqAccuracy : ValidateReq :=
  { validation_status := none, quality_metrics := some [("accuracy", some (7/10))] }

/-- A create request targeting an entry identifier. -/
def mkCreateReq (deid : String) : CreateReq :=
  { data_entry_id := some deid, source_chain := some (JVal.arr [JVal.str "S1"])
    quality_metrics := some [("accuracy", some (4/5))]
    validation_status := some "validated" }

/-- A store with five scanned lineage records, two of which carry a
non-null timeliness value, and one record with an unrecognised validation
status. -/
def storeB : Store :=
  { sources := [sampleSource]
    entries := [mkEntry "E1", mkEntry "E2"]
    lineages :=
      [mkLineage "L1" "E1" (some [("timeliness", some (9/10))]) "validated",
       mkLineage "L2" "E1" (some [("timeliness", some (7/10)), ("accuracy", some 1)]) "pending",
       mkLineage "L3" "E1" (some []) "pending",
       mkLineage "L4" "E2" (some [("timeliness", none)]) "failed",
       mkLineage "L5" "E2" (some [("completeness", some (1/2))]) "in_review"] }

/-- A store with ten entries of which exactly four have lineage records. -/
def storeC : Store :=
  { sources := [sampleSource]
    entries :=
      [mkEntry "E1", mkEntry "E2", mkEntry "E3", mkEntry "E4", mkEntry "E5",
       mkEntry "E6", mkEntry "E7", mkEntry "E8", mkEntry "E9", mkEntry "E10"]
    lineages :=
      [mkLineage "L1" "E1" (some []) "pending",
       mkLineage "L2" "E1" (some []) "validated",
       mkLineage "L3" "E2" (some []) "pending",
       mkLineage "L4" "E3" (some []) "failed",
       mkLineage "L5" "E4" (some []) "pending"] }

/-! ### Association-list and counting-dictionary lemmas -/

theorem aFind_nil {α : Type} (k : String) : aFind ([] : List (String × α)) k = none := rfl

theorem aFind_cons {α : Type} (p : String × α) (rest : List (String × α)) (k : String) :
    aFind (p :: rest) k = if p.1 == k then some p.2 else aFind rest k := by
  by_cases h : p.1 == k
  · simp [aFind, List.find?_cons_of_pos, h]
  · simp only [aFind, List.find?]
    rw [show (p.1 == k) = false by simpa using h]
    rfl

theorem dictUpdate_nil_right (old : QMetrics) : dictUpdate old [] = old := by
  induction old with
  | nil => rfl
  | cons p rest ih => simp [dictUpdate, aFind_nil, ih]

/-- Lookup in a merged mapping: keys present in the partial take the
partial's value, all other keys keep the old mapping's value. -/
theorem aFind_dictUpdate (old upd : QMetrics) (k : String) :
    aFind (dictUpdate old upd) k =
      match aFind upd k with
      | some v => some v
      | none => aFind old k := by
  induction old with
  | nil =>
    cases h : aFind upd k <;> simp [dictUpdate, aFind_nil, h]
  | cons p rest ih =>
    rw [show dictUpdate (p :: rest) upd =
        (if (aFind upd p.1).isSome then dictUpdate rest upd
         else p :: dictUpdate rest upd) from rfl]
    by_cases hu : (aFind upd p.1).isSome
    · rw [if_pos hu, ih]
      cases h : aFind upd k with
      | some v => rfl
      | none =>
        have hk : (p.1 == k) = false := by
          rw [beq_eq_false_iff_ne]
          intro he
          rw [he, h] at hu
          simp at hu
        simp [aFind_cons, hk]
    · rw [if_neg hu]
      have hpn : aFind upd p.1 = none := Option.not_isSome_iff_eq_none.mp hu
      by_cases hk : (p.1 == k) = true
      · have hk' : p.1 = k := by simpa using hk
        have hnone : aFind upd k = none := hk' ▸ hpn
        rw [hnone]
        simp [aFind_cons, hk]
      · have hkf : (p.1 == k) = false := by simpa using hk
        cases h : aFind upd k with
        | some v => simp [aFind_cons, hkf, ih, h]
        | none => simp [aFind_cons, hkf, ih, h]

theorem dGet_dSet (d : CountDict) (k : String) (v : Nat) (s : String) :
    dGet (dSet d k v) s 0 = if k == s then v else dGet d s 0 := by
  induction d with
  | nil =>
    by_cases h : (k == s) = true <;>
      simp [dSet, dGet, aFind_cons, aFind_nil, h]
  | cons p rest ih =>
    rw [show dSet (p :: rest) k v =
        (if p.1 == k then (k, v) :: rest else p :: dSet rest k v) from rfl]
    by_cases hpk : (p.1 == k) = true
    · have hpk' : p.1 = k := by simpa using hpk
      rw [if_pos hpk]
      by_cases hks : (k == s) = true
      · simp [dGet, aFind_cons, hks]
      · have hksf : (k == s) = false := by simpa using hks
        have hps : (p.1 == s) = false := by rw [hpk']; exact hksf
        simp [dGet, aFind_cons, hksf, hps]
    · have hpkf : (p.1 == k) = false := by simpa using hpk
      rw [if_neg (by simp [hpkf])]
      by_cases hps : (p.1 == s) = true
      · have hps' : p.1 = s := by simpa using hps
        have hksf : (k == s) = false := by
          rw [beq_eq_false_iff_ne]
          intro he
          have h2 : (p.1 == k) = true := by rw [he]; exact hps
          rw [hpkf] at h2
          exact Bool.false_ne_true h2
        simp [dGet, aFind_cons, hps, hksf]
      · have hpsf : (p.1 == s) = false := by simpa using hps
        have l1 : dGet (p :: dSet rest k v) s 0 = dGet (dSet rest k v) s 0 := by
          simp [dGet, aFind_cons, hpsf]
        have l2 : dGet (p :: rest) s 0 = dGet rest s 0 := by
          simp [dGet, aFind_cons, hpsf]
        rw [l1, ih, l2]

theorem dGet_bumpStatus (d : CountDict) (k s : String) :
    dGet (bumpStatus d k) s 0 = dGet d s 0 + (if k == s then 1 else 0) := by
  rw [bumpStatus, dGet_dSet]
  by_cases h : (k == s) = true
  · have h' : k = s := by simpa using h
    subst h'
    simp [h]
  · simp [h]

theorem dValuesSum_bumpStatus (d : CountDict) (k : String) :
    dValuesSum (bumpStatus d k) = dValuesSum d + 1 := by
  induction d with
  | nil => rfl
  | cons p rest ih =>
    by_cases hpk : (p.1 == k) = true
    · have hset : bumpStatus (p :: rest) k = (k, dGet (p :: rest) k 0 + 1) :: rest := by
        simp [bumpStatus, dSet, hpk]

      have hget : dGet (p :: rest) k 0 = p.2 := by
        simp [dGet, aFind_cons, hpk]
      rw [hset, hget]
      simp only [dValuesSum, List.map_cons, List.sum_cons]
      omega
    · have hpkf : (p.1 == k) = false := by simpa using hpk
      have hget : dGet (p :: rest) k 0 = dGet rest k 0 := by
        simp [dGet, aFind_cons, hpkf]
      have hset : bumpStatus (p :: rest) k = p :: bumpStatus rest k := by
        rw [bumpStatus]
        rw [show dSet (p :: rest) k (dGet (p :: rest) k 0 + 1) =
            (if p.1 == k then (k, dGet (p :: rest) k 0 + 1) :: rest
             else p :: dSet rest k (dGet (p :: rest) k 0 + 1)) from rfl]
        rw [if_neg (by simp [hpkf]), hget, bumpStatus]
      rw [hset]
      simp only [dValuesSum, List.map_cons, List.sum_cons] at ih ⊢
      omega

/-! ### Metric-accumulator lemmas -/

theorem updFun_self {α : Type} (f : String → α) (k : String) (v : α) :
    updFun f k v k = v := by
  simp [updFun]

theorem updFun_other {α : Type} (f : String → α) (k : String) (v : α) (x : String)
    (h : x ≠ k) : updFun f k v x = f x := by
  simp [updFun, h]

theorem procMetricsGo_not_mem (metrics : QMetrics) (keys : List String)
    (acc : (String → ℚ) × (String → Nat)) (metric : String) (h : metric ∉ keys) :
    (procMetricsGo metrics keys acc).1 metric = acc.1 metric ∧
    (procMetricsGo metrics keys acc).2 metric = acc.2 metric := by
  induction keys generalizing acc with
  | nil => exact ⟨rfl, rfl⟩
  | cons key rest ih =>
    have hne : metric ≠ key := fun he => h (he ▸ List.mem_cons_self key rest)
    have hrest : metric ∉ rest := fun hm => h (List.mem_cons_of_mem key hm)
    rw [show procMetricsGo metrics (key :: rest) acc =
        procMetricsGo metrics rest
          (match aFind metrics key with
           | some (some v) =>
             (updFun acc.1 key (acc.1 key + v), updFun acc.2 key (acc.2 key + 1))
           | _ => acc) from rfl]
    cases hf : aFind metrics key with
    | none =>
      exact ih _ hrest
    | some w =>
      cases w with
      | none => exact ih _ hrest
      | some v =>
        rcases ih (updFun acc.1 key (acc.1 key + v), updFun acc.2 key (acc.2 key + 1))
          hrest with ⟨h1, h2⟩
        rw [h1, h2]
        exact ⟨updFun_other _ _ _ _ hne, updFun_other _ _ _ _ hne⟩

theorem procMetricsGo_mem (metrics : QMetrics) (keys : List String)
    (acc : (String → ℚ) × (String → Nat)) (metric : String)
    (hnd : keys.Nodup) (h : metric ∈ keys) :
    (procMetricsGo metrics keys acc).1 metric =
      acc.1 metric + (metricValue metrics metric).getD 0 ∧
    (procMetricsGo metrics keys acc).2 metric =
      acc.2 metric + (if (metricValue metrics metric).isSome then 1 else 0) := by
  induction keys generalizing acc with
  | nil => exact absurd h (List.not_mem_nil metric)
  | cons key rest ih =>
    rw [show procMetricsGo metrics (key :: rest) acc =
        procMetricsGo metrics rest
          (match aFind metrics key with
           | some (some v) =>
             (updFun acc.1 key (acc.1 key + v), updFun acc.2 key (acc.2 key + 1))
           | _ => acc) from rfl]
    rcases List.nodup_cons.mp hnd with ⟨hknr, hndr⟩
    by_cases hmk : metric = key
    · subst hmk
      have hnm : metric ∉ rest := hknr
      cases hf : aFind metrics metric with
      | none =>
        rcases procMetricsGo_not_mem metrics rest acc metric hnm with ⟨h1, h2⟩
        rw [h1, h2]
        simp [metricValue, hf]
      | some w =>
        cases w with
        | none =>
          rcases procMetricsGo_not_mem metrics rest acc metric hnm with ⟨h1, h2⟩
          rw [h1, h2]
          simp [metricValue, hf]
        | some v =>
          rcases procMetricsGo_not_mem metrics rest
            (updFun acc.1 metric (acc.1 metric + v), updFun acc.2 metric (acc.2 metric + 1))
            metric hnm with ⟨h1, h2⟩
          rw [h1, h2]
          simp [metricValue, hf, updFun_self]
    · have hmr : metric ∈ rest := by
        rcases List.mem_cons.mp h with hc | hc
        · exact absurd hc hmk
        · exact hc
      cases hf : aFind metrics key with
      | none => exact ih _ hndr hmr
      | some w =>
        cases w with
        | none => exact ih _ hndr hmr
        | some v =>
          rcases ih (updFun acc.1 key (acc.1 key + v), updFun acc.2 key (acc.2 key + 1))
            hndr hmr with ⟨h1, h2⟩
          rw [h1, h2]
          constructor
          · simp [updFun, hmk]
          · simp [updFun, hmk]

theorem qualityKeys_nodup : qualityKeys.Nodup := by decide

/-! ### Record-loop lemmas for the quality report -/

theorem reportFold_metric (records : List DataLineage)
    (acc : CountDict × ((String → ℚ) × (String → Nat))) (metric : String)
    (hmem : metric ∈ qualityKeys) :
    (records.foldl reportStep acc).2.1 metric =
      acc.2.1 metric + (contributions records metric).sum ∧
    (records.foldl reportStep acc).2.2 metric =
      acc.2.2 metric + (contributions records metric).length := by
  induction records generalizing acc with
  | nil => simp [contributions]
  | cons r rest ih =>
    rw [List.foldl_cons]
    rcases ih (reportStep acc r) with ⟨h1, h2⟩
    rw [h1, h2]
    cases hq : r.quality_metrics with
    | none =>
      have hstep : (reportStep acc r).2 = acc.2 := by
        simp [reportStep, hq]
      rw [hstep]
      have hc : contributions (r :: rest) metric = contributions rest metric := by
        simp [contributions, hq]
      rw [hc]
      exact ⟨rfl, rfl⟩
    | some metrics =>
      have hstep : (reportStep acc r).2 = procMetricsGo metrics qualityKeys acc.2 := by
        simp [reportStep, hq, procMetrics]
      rw [hstep]
      rcases procMetricsGo_mem metrics qualityKeys acc.2 metric qualityKeys_nodup hmem
        with ⟨g1, g2⟩
      rw [g1, g2]
      cases hv : metricValue metrics metric with
      | none =>
        have hc : contributions (r :: rest) metric = contributions rest metric := by
          simp [contributions, hq, hv]
        rw [hc]
        constructor
        · simp
        · simp
      | some v =>
        have hc : contributions (r :: rest) metric = v :: contributions rest metric := by
          simp [contributions, hq, hv]
        rw [hc]
        constructor
        · simp only [List.sum_cons, Option.getD_some]
          ring
        · simp only [List.length_cons, Option.isSome_some, if_true]
          omega

theorem reportFold_status (records : List DataLineage)
    (acc : CountDict × ((String → ℚ) × (String → Nat))) (s : String) :
    dGet ((records.foldl reportStep acc).1) s 0 =
      dGet acc.1 s 0 + (records.filter (fun r => r.validation_status == s)).length := by
  induction records generalizing acc with
  | nil => simp
  | cons r rest ih =>
    rw [List.foldl_cons, ih]
    have hstep : (reportStep acc r).1 = bumpStatus acc.1 r.validation_status := rfl
    rw [hstep, dGet_bumpStatus]
    by_cases h : (r.validation_status == s) = true
    · simp only [List.filter_cons, h, if_true, List.length_cons]
      omega
    · have hf : (r.validation_status == s) = false := by simpa using h
      simp only [List.filter_cons, hf, Bool.false_eq_true, if_false]
      simp [hf]

theorem reportFold_sum (records : List DataLineage)
    (acc : CountDict × ((String → ℚ) × (String → Nat))) :
    dValuesSum ((records.foldl reportStep acc).1) =
      dValuesSum acc.1 + records.length := by
  induction records generalizing acc with
  | nil => simp
  | cons r rest ih =>
    rw [List.foldl_cons, ih]
    have hstep : (reportStep acc r).1 = bumpStatus acc.1 r.validation_status := rfl
    rw [hstep, dValuesSum_bumpStatus]
    simp only [List.length_cons]
    omega

theorem dGet_initValidationCounts (s : String) : dGet initValidationCounts s 0 = 0 := by
  by_cases h1 : ("validated" == s) = true
  · simp [dGet, initValidationCounts, aFind_cons, h1]
  · have h1f : ("validated" == s) = false := by simpa using h1
    by_cases h2 : ("pending" == s) = true
    · simp [dGet, initValidationCounts, aFind_cons, h1f, h2]
    · have h2f : ("pending" == s) = false := by simpa using h2
      by_cases h3 : ("failed" == s) = true
      · simp [dGet, initValidationCounts, aFind_cons, h1f, h2f, h3]
      · have h3f : ("failed" == s) = false := by simpa using h3
        simp [dGet, initValidationCounts, aFind_cons, aFind_nil, h1f, h2f, h3f]

theorem aFind_map_keys {α : Type} (keys : List String) (f : String → α) (metric : String)
    (h : metric ∈ keys) :
    aFind (keys.map fun k => (k, f k)) metric = some (f metric) := by
  induction keys with
  | nil => exact absurd h (List.not_mem_nil metric)
  | cons key rest ih =>
    rw [List.map_cons, aFind_cons]
    by_cases hk : (key == metric) = true
    · have hk' : key = metric := by simpa using hk
      simp [hk, hk']
    · have hkf : (key == metric) = false := by simpa using hk
      have hmr : metric ∈ rest := by
        rcases List.mem_cons.mp h with hc | hc
        · exact absurd hc.symm (by simpa using hk)
        · exact hc
      simp [hkf, ih hmr]

/-- Shape of the quality report over at least one scanned record. -/
theorem get_quality_report_of_ne_nil (st : Store) (h : scannedRecords st ≠ []) :
    get_quality_report st = QualityReport.report (scannedRecords st).length
      ((scannedRecords st).foldl reportStep reportInit).1
      (reportAverages ((scannedRecords st).foldl reportStep reportInit).2)
      (reportCoverage ((scannedRecords st).foldl reportStep reportInit).2
        (scannedRecords st).length) := by
  rw [get_quality_report, if_neg]
  simp [List.isEmpty_iff, h]

/-! ### Validate-operation lemmas -/

theorem findLineage_id (st : Store) (lid : String) (l : DataLineage)
    (h : findLineage st lid = some l) : l.id = lid := by
  have := List.find?_some h
  simpa using this

/-- After replacing every record whose id matches `lid` by `l2` (whose id is
`lid`), the primary-key lookup returns `l2`, provided some record matched. -/
theorem find?_map_update (l : List DataLineage) (lid : String) (l2 : DataLineage)
    (h2 : l2.id = lid) (x : DataLineage)
    (hx : l.find? (fun y => y.id == lid) = some x) :
    (l.map (fun y => if y.id == lid then l2 else y)).find? (fun y => y.id == lid)
      = some l2 := by
  induction l with
  | nil => exact absurd hx (by simp)
  | cons a rest ih =>
    by_cases ha : (a.id == lid) = true
    · rw [List.map_cons, if_pos ha]
      exact List.find?_cons_of_pos _ (by simp [h2])
    · have haf : (a.id == lid) = false := by simpa using ha
      rw [List.find?_cons_of_neg _ (by simp [haf])] at hx
      rw [List.map_cons, if_neg (by simp [haf])]
      rw [List.find?_cons_of_neg _ (by simp [haf])]
      exact ih hx

/-- The effect of a successful `validate_lineage` on the stored record:
the merged quality-metrics mapping is stored (for a record whose metrics
column is non-NULL), the validation status is set, and `last_verified` is
stamped. -/
theorem validate_lineage_found (st : Store) (lid : String) (req : ValidateReq) (now : Nat)
    (l : DataLineage) (m : QMetrics)
    (hfind : findLineage st lid = some l) (hm : l.quality_metrics = some m) :
    ∃ l' : DataLineage,
      findLineage (validate_lineage st lid req now).2 lid = some l' ∧
      l'.quality_metrics = some (dictUpdate m (req.quality_metrics.getD [])) ∧
      l'.validation_status = req.validation_status.getD "validated" ∧
      l'.last_verified = some now ∧
      (validate_lineage st lid req now).1 = Except.ok l'.to_dict := by
  have hid : l.id = lid := findLineage_id st lid l hfind
  by_cases he : (req.quality_metrics.getD []).isEmpty = true
  · have hqnil : req.quality_metrics.getD [] = [] := by
      cases hq : req.quality_metrics.getD [] with
      | nil => rfl
      | cons a b => rw [hq] at he; simp at he
    have heq : validate_lineage st lid req now =
        (Except.ok (DataLineage.to_dict
           { l with validation_status := req.validation_status.getD "validated",
                    last_verified := some now }),
         { st with lineages := st.lineages.map (fun x =>
             if x.id == lid
             then { l with validation_status := req.validation_status.getD "validated",
                           last_verified := some now }
             else x) }) := by
      simp [validate_lineage, hfind, he]
    refine ⟨{ l with validation_status := req.validation_status.getD "validated",
                     last_verified := some now }, ?_, ?_, rfl, rfl, ?_⟩
    · rw [heq]
      exact find?_map_update st.lineages lid _ hid l hfind
    · rw [hqnil, dictUpdate_nil_right]
      exact hm
    · rw [heq]
  · have heq : validate_lineage st lid req now =
        (Except.ok (DataLineage.to_dict
           { l with validation_status := req.validation_status.getD "validated",
                    last_verified := some now,
                    quality_metrics :=
                      some (dictUpdate m (req.quality_metrics.getD [])) }),
         { st with lineages := st.lineages.map (fun x =>
             if x.id == lid
             then { l with validation_status := req.validation_status.getD "validated",
                           last_verified := some now,
                           quality_metrics :=
                             some (dictUpdate m (req.quality_metrics.getD [])) }
             else x) }) := by
      simp [validate_lineage, hfind, he, hm]
    refine ⟨{ l with validation_status := req.validation_status.getD "validated",
                     last_verified := some now,
                     quality_metrics :=
                       some (dictUpdate m (req.quality_metrics.getD [])) },
            ?_, rfl, rfl, rfl, ?_⟩
    · rw [heq]
      exact find?_map_update st.lineages lid _ hid l hfind
    · rw [heq]

/-! ### Claim theorems -/

/-- C1: the validate operation merges rather than replaces: the stored
quality-metrics mapping is exactly the existing mapping updated with the
supplied partial — keys present in the partial are overwritten, keys absent
keep their existing values — and consequently validating the same record
twice with key-disjoint partials leaves both partials' keys present with
their respective values. -/
theorem validate_merges_quality_metrics
    (st : Store) (lid : String) (req : ValidateReq) (now : Nat)
    (l : DataLineage) (m : QMetrics)
    (hfind : findLineage st lid = some l) (hm : l.quality_metrics = some m) :
    (∃ l' : DataLineage,
      findLineage (validate_lineage st lid req now).2 lid = some l' ∧
      l'.quality_metrics = some (dictUpdate m (req.quality_metrics.getD [])) ∧
      (∀ k v, aFind (req.quality_metrics.getD []) k = some v →
        aFind (dictUpdate m (req.quality_metrics.getD [])) k = some v) ∧
      (∀ k, aFind (req.quality_metrics.getD []) k = none →
        aFind (dictUpdate m (req.quality_metrics.getD [])) k = aFind m k)) ∧
    (∀ (req2 : ValidateReq) (now2 : Nat),
      (∀ k, (aFind (req.quality_metrics.getD []) k).isSome = true →
        aFind (req2.quality_metrics.getD []) k = none) →
      ∃ l'' : DataLineage,
        findLineage
          (validate_lineage (validate_lineage st lid req now).2 lid req2 now2).2 lid
          = some l'' ∧
        ∃ m'' : QMetrics, l''.quality_metrics = some m'' ∧
          (∀ k v, aFind (req.quality_metrics.getD []) k = some v →
            aFind m'' k = some v) ∧
          (∀ k v, aFind (req2.quality_metrics.getD []) k = some v →
            aFind m'' k = some v)) := by
  obtain ⟨l', hf', hq', -, -, -⟩ := validate_lineage_found st lid req now l m hfind hm
  constructor
  · refine ⟨l', hf', hq', ?_, ?_⟩
    · intro k v hv
      rw [aFind_dictUpdate, hv]
    · intro k hv
      rw [aFind_dictUpdate, hv]
  · intro req2 now2 hdisj
    obtain ⟨l'', hf'', hq'', -, -, -⟩ :=
      validate_lineage_found _ lid req2 now2 l' _ hf' hq'
    refine ⟨l'', hf'', _, hq'', ?_, ?_⟩
    · intro k v hv
      have hd2 : aFind (req2.quality_metrics.getD []) k = none :=
        hdisj k (by rw [hv]; rfl)
      rw [aFind_dictUpdate, hd2, aFind_dictUpdate, hv]
    · intro k v hv
      rw [aFind_dictUpdate, hv]

/-- Witness for C1: validating with a completeness-only partial then an
accuracy-only partial leaves both keys present with their values. -/
theorem validate_merges_quality_metrics_witness :
    ∃ l'' : DataLineage,
      findLineage
        (validate_lineage (validate_lineage storeA "L1" vreqCompleteness 5).2 "L1"
          vreqAccuracy 6).2 "L1" = some l'' ∧
      ∃ m'' : QMetrics, l''.quality_metrics = some m'' ∧
        aFind m'' "completeness" = some (some (1/2)) ∧
        aFind m'' "accuracy" = some (some (7/10)) := by
  obtain ⟨-, h2⟩ :=
    validate_merges_quality_metrics storeA "L1" vreqCompleteness 5 lineageA [] rfl rfl
  obtain ⟨l'', hf, m'', hm, hp1, hp2⟩ := h2 vreqAccuracy 6 (by
    intro k hk
    rw [show vreqCompleteness.quality_metrics.getD [] =
        [("completeness", some (1/2))] from rfl, aFind_cons] at hk
    by_cases hc : ("completeness" == k) = true
    · have hk' : k = "completeness" := (eq_of_beq hc).symm
      subst hk'
      rfl
    · have hcf : ("completeness" == k) = false := by simpa using hc
      rw [hcf] at hk
      simp [aFind_nil] at hk)
  exact ⟨l'', hf, m'', hm, hp1 "completeness" (some (1/2)) rfl,
    hp2 "accuracy" (some (7/10)) rfl⟩

/-- C2: creating a lineage record for a data-entry identifier that does not
resolve fails with NotFound and leaves the store unchanged. -/
theorem create_nonexistent_entry_not_found
    (st : Store) (req : CreateReq) (newId : String) (now : Nat)
    (deid : String) (sc : JVal)
    (hd : req.data_entry_id = some deid)
    (hs : req.source_chain = some sc)
    (hmiss : findEntry st deid = none) :
    create_lineage_record st req newId now
      = (Except.error (ApiError.notFound "Data entry not found"), st) := by
  simp [create_lineage_record, hd, hs, hmiss]

/-- Witness for C2 at a concrete store and request. -/
theorem create_nonexistent_entry_not_found_witness :
    create_lineage_record storeA (mkCreateReq "E404") "N1" 7
      = (Except.error (ApiError.notFound "Data entry not found"), storeA) :=
  create_nonexistent_entry_not_found storeA (mkCreateReq "E404") "N1" 7 "E404"
    (JVal.arr [JVal.str "S1"]) rfl rfl rfl

/-- C3 (code bug): on an unresolved lineage-record identifier the validate
operation, and on an unresolved data-entry identifier the trace operation,
do NOT fail with a not-found classification as the specification requires:
`get_or_404` raises werkzeug's NotFound inside the view's `try`, the broad
`except Exception` catches it, and the response is an HTTP 500
internal-error carrying the exception's text — an error class distinct from
not-found. -/
theorem unresolved_identifiers_internal_error
    (st : Store) (lid deid : String) (req : ValidateReq) (now : Nat)
    (hl : findLineage st lid = none) (he : findEntry st deid = none) :
    validate_lineage st lid req now
      = (Except.error (ApiError.internalError get_or_404_message), st) ∧
    trace_data_lineage st deid
      = Except.error (ApiError.internalError get_or_404_message) ∧
    ∀ msg, ApiError.internalError get_or_404_message ≠ ApiError.notFound msg := by
  refine ⟨?_, ?_, fun msg hc => ApiError.noConfusion hc⟩
  · simp [validate_lineage, hl]
  · simp [trace_data_lineage, he]

/-- Witness for the C3 code-bug theorem at a concrete store and unresolved
identifiers. -/
theorem unresolved_identifiers_internal_error_witness :
    validate_lineage storeA "LX" vreqCompleteness 3
      = (Except.error (ApiError.internalError get_or_404_message), storeA) ∧
    trace_data_lineage storeA "EX"
      = Except.error (ApiError.internalError get_or_404_message) ∧
    ∀ msg, ApiError.internalError get_or_404_message ≠ ApiError.notFound msg :=
  unresolved_identifiers_internal_error storeA "LX" "EX" vreqCompleteness 3 rfl rfl

/-- C4: with zero scanned records the quality report is the distinct
"no data" response with total 0, and is never the ordinary report shape. -/
theorem quality_report_no_data_distinct (st : Store)
    (h : scannedRecords st = []) :
    get_quality_report st = QualityReport.noData "No quality metrics available" 0 ∧
    ∀ t v a c, get_quality_report st ≠ QualityReport.report t v a c := by
  have h1 : get_quality_report st
      = QualityReport.noData "No quality metrics available" 0 := by
    rw [get_quality_report, if_pos]
    rw [h]
    rfl
  refine ⟨h1, fun t v a c hc => ?_⟩
  rw [h1] at hc
  exact QualityReport.noConfusion hc

/-- Witness for C4 on the empty store. -/
theorem quality_report_no_data_distinct_witness :
    get_quality_report emptyStore
      = QualityReport.noData "No quality metrics available" 0 ∧
    ∀ t v a c, get_quality_report emptyStore ≠ QualityReport.report t v a c :=
  quality_report_no_data_distinct emptyStore rfl

/-- C5: in the quality report, each fixed metric's average is the arithmetic
mean over exactly the scanned records carrying that key with a non-null
value (absent — not zero — when no record contributes), and its coverage
string is "count/total" with total the number of scanned records. -/
theorem quality_report_average_and_coverage
    (st : Store) (metric : String)
    (hne : scannedRecords st ≠ []) (hmem : metric ∈ qualityKeys) :
    ∃ v a c,
      get_quality_report st = QualityReport.report (scannedRecords st).length v a c ∧
      aFind a metric =
        some (if (contributions (scannedRecords st) metric).isEmpty then none
              else some ((contributions (scannedRecords st) metric).sum /
                ((contributions (scannedRecords st) metric).length : ℚ))) ∧
      aFind c metric =
        some (Nat.repr (contributions (scannedRecords st) metric).length ++ "/" ++
          Nat.repr (scannedRecords st).length) := by
  refine ⟨_, _, _, get_quality_report_of_ne_nil st hne, ?_, ?_⟩
  · rcases reportFold_metric (scannedRecords st) reportInit metric hmem with ⟨g1, g2⟩
    have g1' : ((scannedRecords st).foldl reportStep reportInit).2.1 metric
        = (contributions (scannedRecords st) metric).sum := by
      rw [g1]; simp [reportInit]
    have g2' : ((scannedRecords st).foldl reportStep reportInit).2.2 metric
        = (contributions (scannedRecords st) metric).length := by
      rw [g2]; simp [reportInit]
    rw [show reportAverages ((scannedRecords st).foldl reportStep reportInit).2 =
        qualityKeys.map (fun k => (k,
          if 0 < ((scannedRecords st).foldl reportStep reportInit).2.2 k
          then some (((scannedRecords st).foldl reportStep reportInit).2.1 k /
            (((scannedRecords st).foldl reportStep reportInit).2.2 k : ℚ))
          else none)) from rfl]
    rw [aFind_map_keys qualityKeys _ metric hmem]
    rw [g1', g2']
    cases hcon : contributions (scannedRecords st) metric with
    | nil => simp
    | cons q qs => simp
  · rcases reportFold_metric (scannedRecords st) reportInit metric hmem with ⟨-, g2⟩
    have g2' : ((scannedRecords st).foldl reportStep reportInit).2.2 metric
        = (contributions (scannedRecords st) metric).length := by
      rw [g2]; simp [reportInit]
    rw [show reportCoverage ((scannedRecords st).foldl reportStep reportInit).2
          (scannedRecords st).length =
        qualityKeys.map (fun k => (k,
          Nat.repr (((scannedRecords st).foldl reportStep reportInit).2.2 k) ++ "/" ++
          Nat.repr (scannedRecords st).length)) from rfl]
    rw [aFind_map_keys qualityKeys _ metric hmem]
    rw [g2']

/-- Witness for C5: in `storeB` only 2 of the 5 scanned records carry a
non-null timeliness value, so the average is their mean and the coverage
string is "2/5". -/
theorem quality_report_average_and_coverage_witness :
    ∃ v a c,
      get_quality_report storeB
        = QualityReport.report (scannedRecords storeB).length v a c ∧
      aFind a "timeliness" =
        some (if (contributions (scannedRecords storeB) "timeliness").isEmpty then none
              else some ((contributions (scannedRecords storeB) "timeliness").sum /
                ((contributions (scannedRecords storeB) "timeliness").length : ℚ))) ∧
      aFind c "timeliness" =
        some (Nat.repr (contributions (scannedRecords storeB) "timeliness").length ++
          "/" ++ Nat.repr (scannedRecords storeB).length) :=
  quality_report_average_and_coverage storeB "timeliness"
    (by simp [scannedRecords, storeB, mkLineage]) (by simp [qualityKeys])

/-- C8: the quality report's validation-status tally counts every scanned
record in exactly the bucket of its own status — including statuses outside
validated/pending/failed — and the bucket values sum to the number of
scanned records, so no record is dropped. -/
theorem report_status_tally_complete (st : Store)
    (hne : scannedRecords st ≠ []) :
    ∃ v a c,
      get_quality_report st = QualityReport.report (scannedRecords st).length v a c ∧
      (∀ s : String, dGet v s 0 =
        ((scannedRecords st).filter (fun r => r.validation_status == s)).length) ∧
      dValuesSum v = (scannedRecords st).length := by
  refine ⟨_, _, _, get_quality_report_of_ne_nil st hne, ?_, ?_⟩
  · intro s
    rw [reportFold_status (scannedRecords st) reportInit s]
    rw [show (reportInit.1 : CountDict) = initValidationCounts from rfl]
    rw [dGet_initValidationCounts, zero_add]
  · rw [reportFold_sum (scannedRecords st) reportInit]
    rw [show dValuesSum (reportInit.1 : CountDict) = 0 from rfl, zero_add]

/-- Witness for C8 on `storeB`, whose records include the unrecognised
status "in_review". -/
theorem report_status_tally_complete_witness :
    ∃ v a c,
      get_quality_report storeB
        = QualityReport.report (scannedRecords storeB).length v a c ∧
      (∀ s : String, dGet v s 0 =
        ((scannedRecords storeB).filter (fun r => r.validation_status == s)).length) ∧
      dValuesSum v = (scannedRecords storeB).length :=
  report_status_tally_complete storeB (by simp [scannedRecords, storeB, mkLineage])

/-- C6: the coverage statistics report entries-without-lineage as the total
entry count minus the distinct count of entry identifiers with lineage, and
the coverage percentage as distinct-with-lineage over total-entries times
100 rounded to two decimals, with 0 when there are no entries; concretely,
10 entries of which 4 have lineage yield 6 and 40.0, and an empty store
yields percentage 0 without failing. -/
theorem lineage_stats_coverage (st : Store) :
    ((get_lineage_stats st).entries_without_lineage =
      (st.entries.length : ℤ) -
        (((st.lineages.map (fun l => l.data_entry_id)).dedup).length : ℤ) ∧
     (get_lineage_stats st).lineage_coverage_percentage =
       (if 0 < st.entries.length then
          round2 ((((st.lineages.map (fun l => l.data_entry_id)).dedup).length : ℚ) /
            (st.entries.length : ℚ) * 100)
        else 0)) ∧
    (get_lineage_stats storeC).entries_without_lineage = 6 ∧
    (get_lineage_stats storeC).lineage_coverage_percentage = 40 ∧
    (get_lineage_stats emptyStore).lineage_coverage_percentage = 0 := by
  refine ⟨⟨rfl, rfl⟩, ?_, ?_, rfl⟩
  · decide
  · have hdist : ((storeC.lineages.map (fun l => l.data_entry_id)).dedup).length = 4 := by
      decide
    rw [show (get_lineage_stats storeC).lineage_coverage_percentage =
        (if 0 < storeC.entries.length then
          round2 ((((storeC.lineages.map (fun l => l.data_entry_id)).dedup).length : ℚ) /
            (storeC.entries.length : ℚ) * 100)
         else 0) from rfl]
    rw [hdist, show storeC.entries.length = 10 from rfl]
    norm_num [round2, roundHalfEven, ratFloor]

/-- C7: tracing a resolvable data entry returns its full representation,
exactly its lineage records, the owning source's representation (absent
when the source link is broken), and a total equal to the number of lineage
records returned; an entry without lineage yields an empty sequence and
total 0 rather than an error. -/
theorem trace_returns_complete_lineage
    (st : Store) (deid : String) (e : DataEntry)
    (he : findEntry st deid = some e) :
    ∃ t : TraceResult, trace_data_lineage st deid = Except.ok t ∧
      t.data_entry = e.to_dict ∧
      t.lineage_records =
        (st.lineages.filter (fun l => l.data_entry_id == deid)).map DataLineage.to_dict ∧
      t.source_info =
        (st.sources.find? (fun s => s.id == e.source_id)).map Source.to_dict ∧
      t.total_lineage_records = t.lineage_records.length ∧
      (st.lineages.filter (fun l => l.data_entry_id == deid) = [] →
        t.lineage_records = [] ∧ t.total_lineage_records = 0) := by
  refine ⟨{ data_entry := e.to_dict
            lineage_records :=
              (st.lineages.filter (fun l => l.data_entry_id == deid)).map DataLineage.to_dict
            source_info :=
              (st.sources.find? (fun s => s.id == e.source_id)).map Source.to_dict
            total_lineage_records :=
              (st.lineages.filter (fun l => l.data_entry_id == deid)).length },
         ?_, rfl, rfl, rfl, ?_, ?_⟩
  · simp [trace_data_lineage, he]
  · simp
  · intro h
    constructor
    · simp [h]
    · simp [h]

/-- Witness for C7: tracing the entry "E1" of `storeA`. -/
theorem trace_returns_complete_lineage_witness :
    ∃ t : TraceResult, trace_data_lineage storeA "E1" = Except.ok t ∧
      t.data_entry = (mkEntry "E1").to_dict ∧
      t.lineage_records =
        (storeA.lineages.filter (fun l => l.data_entry_id == "E1")).map
          DataLineage.to_dict ∧
      t.source_info =
        (storeA.sources.find? (fun s => s.id == (mkEntry "E1").source_id)).map
          Source.to_dict ∧
      t.total_lineage_records = t.lineage_records.length ∧
      (storeA.lineages.filter (fun l => l.data_entry_id == "E1") = [] →
        t.lineage_records = [] ∧ t.total_lineage_records = 0) :=
  trace_returns_complete_lineage storeA "E1" (mkEntry "E1") rfl

/-- C9: every record created through the create operation carries a
non-absent quality-metrics column (the empty mapping when the request omits
it), so it belongs to the quality report's scanned record set, which is the
report's total-records count. -/
theorem created_record_scanned_in_report
    (st : Store) (req : CreateReq) (newId : String) (now : Nat)
    (deid : String) (sc : JVal) (e : DataEntry)
    (hd : req.data_entry_id = some deid) (hs : req.source_chain = some sc)
    (he : findEntry st deid = some e) :
    ∃ (d : LineageDict) (st' : Store) (l : DataLineage),
      create_lineage_record st req newId now = (Except.ok d, st') ∧
      l ∈ st'.lineages ∧ l.id = newId ∧
      l.quality_metrics = some (req.quality_metrics.getD []) ∧
      l ∈ scannedRecords st' ∧
      ∃ v a c,
        get_quality_report st'
          = QualityReport.report (scannedRecords st').length v a c := by
  have heq : create_lineage_record st req newId now =
      (Except.ok (DataLineage.to_dict
        { id := newId, data_entry_id := deid, source_chain := some sc
          quality_metrics := some (req.quality_metrics.getD [])
          validation_status := req.validation_status.getD "pending"
          last_verified := none, created_at := some now }),
       { st with lineages := st.lineages ++
          [{ id := newId, data_entry_id := deid, source_chain := some sc
             quality_metrics := some (req.quality_metrics.getD [])
             validation_status := req.validation_status.getD "pending"
             last_verified := none, created_at := some now }] }) := by
    simp [create_lineage_record, hd, hs, he]
  refine ⟨_, _,
    { id := newId, data_entry_id := deid, source_chain := some sc
      quality_metrics := some (req.quality_metrics.getD [])
      validation_status := req.validation_status.getD "pending"
      last_verified := none, created_at := some now },
    heq, ?_, rfl, rfl, ?_, ?_⟩
  · simp
  · simp [scannedRecords]
  · have hscan :
        ({ id := newId, data_entry_id := deid, source_chain := some sc
           quality_metrics := some (req.quality_metrics.getD [])
           validation_status := req.validation_status.getD "pending"
           last_verified := none, created_at := some now } : DataLineage)
          ∈ scannedRecords { st with lineages := st.lineages ++
            [{ id := newId, data_entry_id := deid, source_chain := some sc
               quality_metrics := some (req.quality_metrics.getD [])
               validation_status := req.validation_status.getD "pending"
               last_verified := none, created_at := some now }] } := by
      simp [scannedRecords]
    have hne : scannedRecords { st with lineages := st.lineages ++
        [{ id := newId, data_entry_id := deid, source_chain := some sc
           quality_metrics := some (req.quality_metrics.getD [])
           validation_status := req.validation_status.getD "pending"
           last_verified := none, created_at := some now }] } ≠ [] := by
      intro h0
      rw [h0] at hscan
      exact absurd hscan (List.not_mem_nil _)
    exact ⟨_, _, _, get_quality_report_of_ne_nil _ hne⟩

/-- Witness for C9: creating a record on `storeA` without checking metrics
content. -/
theorem created_record_scanned_in_report_witness :
    ∃ (d : LineageDict) (st' : Store) (l : DataLineage),
      create_lineage_record storeA (mkCreateReq "E1") "N2" 9 = (Except.ok d, st') ∧
      l ∈ st'.lineages ∧ l.id = "N2" ∧
      l.quality_metrics = some ((mkCreateReq "E1").quality_metrics.getD []) ∧
      l ∈ scannedRecords st' ∧
      ∃ v a c,
        get_quality_report st'
          = QualityReport.report (scannedRecords st').length v a c :=
  created_record_scanned_in_report storeA (mkCreateReq "E1") "N2" 9 "E1"
    (JVal.arr [JVal.str "S1"]) (mkEntry "E1") rfl rfl rfl

/-- C10: a successful create round-trips its inputs through the stored
serialized columns: the returned representation's source chain, quality
metrics (empty mapping when omitted) and validation status (pending when
omitted) equal the supplied values. -/
theorem create_round_trips_inputs
    (st : Store) (req : CreateReq) (newId : String) (now : Nat)
    (deid : String) (sc : JVal) (e : DataEntry)
    (hd : req.data_entry_id = some deid) (hs : req.source_chain = some sc)
    (he : findEntry st deid = some e) :
    ∃ (d : LineageDict) (st' : Store),
      create_lineage_record st req newId now = (Except.ok d, st') ∧
      d.source_chain = sc ∧
      d.quality_metrics = req.quality_metrics.getD [] ∧
      d.validation_status = req.validation_status.getD "pending" := by
  have heq : create_lineage_record st req newId now =
      (Except.ok (DataLineage.to_dict
        { id := newId, data_entry_id := deid, source_chain := some sc
          quality_metrics := some (req.quality_metrics.getD [])
          validation_status := req.validation_status.getD "pending"
          last_verified := none, created_at := some now }),
       { st with lineages := st.lineages ++
          [{ id := newId, data_entry_id := deid, source_chain := some sc
             quality_metrics := some (req.quality_metrics.getD [])
             validation_status := req.validation_status.getD "pending"
             last_verified := none, created_at := some now }] }) := by
    simp [create_lineage_record, hd, hs, he]
  exact ⟨_, _, heq, rfl, rfl, rfl⟩

/-- Witness for C10: creating on `storeA` with explicit metrics and status. -/
theorem create_round_trips_inputs_witness :
    ∃ (d : LineageDict) (st' : Store),
      create_lineage_record storeA (mkCreateReq "E1") "N3" 11 = (Except.ok d, st') ∧
      d.source_chain = JVal.arr [JVal.str "S1"] ∧
      d.quality_metrics = (mkCreateReq "E1").quality_metrics.getD [] ∧
      d.validation_status = (mkCreateReq "E1").validation_status.getD "pending" :=
  create_round_trips_inputs storeA (mkCreateReq "E1") "N3" 11 "E1"
    (JVal.arr [JVal.str "S1"]) (mkEntry "E1") rfl rfl rfl

end GeoPlatform
